import Mathlib

/-!
# Verification of the Augment Code credits monitor core

A shallow embedding of `credits_monitor.py`: the cookie store (a Python
dict, modelled as an insertion-ordered association list), the cookie text
parser, cookie persistence (load/save with the 55-minute freshness window),
the cookie-added event handler, and the credits poller, together with
theorems settling the specification's claims about them.
-/

set_option autoImplicit false

namespace CreditsMonitor

/-! ## Python dict model

A Python `dict` with string keys and values, as an association list that
keeps insertion order: assigning to an existing key updates it in place,
assigning to a new key appends it. -/

abbrev Dict := List (String × String)

/-- `d[k] = v` on a Python dict: replace in place or append. -/
def dictInsert (k v : String) : Dict → Dict
  | [] => [(k, v)]
  | (k', v') :: rest =>
      if k' = k then (k, v) :: rest else (k', v') :: dictInsert k v rest

/-- `d.update(new)` on a Python dict. -/
def dictUpdate (d new : Dict) : Dict :=
  new.foldl (fun acc kv => dictInsert kv.1 kv.2 acc) d

/-- `k in d` on a Python dict (key membership). -/
def dictContains (d : Dict) (k : String) : Bool :=
  d.any (fun kv => kv.1 == k)

/-- `d.get(k)` on a Python dict. -/
def dictGet (d : Dict) (k : String) : Option String :=
  (d.find? (fun kv => kv.1 == k)).map Prod.snd

/-! ## Python string operations

Python `str` values are modelled as `List Char` where convenient; the
operations below are translations of the `str` methods the source uses. -/

/-- Python `s.split(sep)` for a one-character separator: splits at every
occurrence, keeping empty segments. -/
def splitChar (sep : Char) : List Char → List (List Char)
  | [] => [[]]
  | c :: cs =>
      match splitChar sep cs with
      | [] => [[c]]
      | r :: rs => if c = sep then [] :: r :: rs else (c :: r) :: rs

/-- Python `s.strip()`: drop whitespace from both ends. -/
def strip (l : List Char) : List Char :=
  ((l.dropWhile Char.isWhitespace).reverse.dropWhile Char.isWhitespace).reverse

/-- Python `s.split('=', 1)` guarded by `'=' in s`: `none` when no `'='`
occurs, otherwise the parts before and after the first `'='`. -/
def splitFirstEq : List Char → Option (List Char × List Char)
  | [] => none
  | c :: cs =>
      if c = '=' then some ([], cs)
      else
        match splitFirstEq cs with
        | none => none
        | some (n, v) => some (c :: n, v)

/-! ## Cookie text parser (`parse_and_load_cookies`, parsing phase) -/

/-- One loop iteration of `parse_and_load_cookies`: strip the segment, and
when it contains `'='`, split on the first `'='` and insert the stripped
name/value into the accumulated dict. -/
def addPair (acc : Dict) (seg : List Char) : Dict :=
  match splitFirstEq (strip seg) with
  | none => acc
  | some (n, v) => dictInsert (String.mk (strip n)) (String.mk (strip v)) acc

/-- The parsing phase of `parse_and_load_cookies`: semicolon-separated when
the text contains `';'`, otherwise line-separated. -/
def parseCookieText (text : String) : Dict :=
  let chars := text.toList
  if ';' ∈ chars then
    (splitChar ';' chars).foldl addPair []
  else
    (splitChar '\n' chars).foldl addPair []

/-! ## Monitor state and mutation steps

Timestamps are rationals measured in minutes. -/

structure MonitorState where
  cookies : Dict
  cookie_expiry : Option ℚ
  deriving DecidableEq

/-- Observable outcome of a state-mutating handler: the new `self.cookies`
and `self.cookie_expiry`, whether `save_cookies_to_file` ran, and whether
`show_error_state` ran. -/
structure StepResult where
  cookies : Dict
  cookie_expiry : Option ℚ
  saved : Bool
  errorShown : Bool
  deriving DecidableEq

/-- `parse_and_load_cookies`: on a nonempty parse, merge into the store,
refresh the expiry, and save; otherwise (`ValueError` caught) show the
error state and leave the store untouched. -/
def parse_and_load_cookies (st : MonitorState) (text : String) (now : ℚ) :
    StepResult :=
  let new_cookies := parseCookieText text
  if new_cookies.isEmpty then
    { cookies := st.cookies, cookie_expiry := st.cookie_expiry
      saved := false, errorShown := true }
  else
    { cookies := dictUpdate st.cookies new_cookies
      cookie_expiry := some (now + 60), saved := true, errorShown := false }

/-- `on_cookie_added`: store the cookie unconditionally; when the store then
contains `_session` or `web_rpc_proxy_session`, refresh the expiry and save. -/
def on_cookie_added (st : MonitorState) (name value : String) (now : ℚ) :
    StepResult :=
  let cookies := dictInsert name value st.cookies
  if dictContains cookies "_session" || dictContains cookies "web_rpc_proxy_session" then
    { cookies := cookies, cookie_expiry := some (now + 60)
      saved := true, errorShown := false }
  else
    { cookies := cookies, cookie_expiry := st.cookie_expiry
      saved := false, errorShown := false }

/-! ## Cookie persistence (`load_cookies_from_file`, `save_cookies_to_file`) -/

/-- A successfully parsed persistence file: `{cookies, saved_at}`, where
`saved_at` may be missing. -/
structure SavedFile where
  cookies : Dict
  saved_at : Option ℚ

/-- The hardcoded fallback cookies of `load_cookies_from_file`. -/
def initial_cookies : Dict :=
  [("ph_phc_TXdpocbGVeZVm5VJmAsHTMrCofBQu3e0kN8HGMNGTVW_posthog",
    "%7B%22distinct_id%22%3A%22019726d0-7c6c-76c5-831b-8a62820cac48%22%2C%22%24sesid%22%3A%5B1757501448384%2C%220199333f-e0a1-7afe-8bce-3f2ad90ba5a2%22%2C1757501448353%5D%7D"),
   ("ajs_user_id", "fcacaa74-0118-496f-8432-5a2b74d79dfc"),
   ("_session",
    "eyJvYXV0aDI6c3RhdGUiOiJpU1NiQm1RWFZpdHZZQmhHQWhEdklXaFRVdmRTMjZESjZrRmZuY1JFQlBRIiwib2F1dGgyOmNvZGVWZXJpZmllciI6IlBvbzdhQzVsQ2FQX1JxdktZTnVZU051cFR1eXI5eEtnZmR3anlQbDBUeFkiLCJ1c2VyIjp7InVzZXJJZCI6ImZjYWNhYTc0LTAxMTgtNDk2Zi04NDMyLTVhMmI3NGQ3OWRmYyIsInRlbmFudElkIjoiNGRkZDgzYWVlODdiNzZlNGE3M2JmODNlZWQ3MzBmMmYiLCJ0ZW5hbnROYW1lIjoiZDExLWRpc2NvdmVyeTYiLCJzaGFyZE5hbWVzcGFjZSI6ImQxMSIsImVtYWlsIjoiQmluZ293QG91dGxvb2suY29tIiwicm9sZXMiOltdLCJjcmVhdGVkQXQiOjE3NjM1NTcxMDIzNzQsInNlc3Npb25JZCI6ImI2NzM0OGY4LWMwYTItNGUzOS04MTlhLThlNDMwOTg4YjYxZSJ9fQ%3D%3D.m5khOjUrFY%2Fxb0Isz9X59NJH1irkJefTiO5mkFWCAPU"),
   ("web_rpc_proxy_session",
    "MTc2MzU1NzE5NHxYelNuOWdha1p4WHpnNFc4RTd3VngzZ3ZqVlhXNHVKdXlrbzJoOUJCOEVzdXB0ZTNsMFZMMHVCREtuWXpKS2RLdWlGb0MxUWVKZHRlaFFxSUNqcW42NVlyWFNjaEcxNVpqTVZEamZUVUZnT3NuM3RoMnJVMmdhcklsTnVGVFhpcEE3T3pFbnEzOXRXTUY4V1MzQU84Vy1ubGJvdzBpeFRNczNoX3JNT3lQLTBJNzdPS2xJX3NvNmRxZDhCYzNzUWR0WTg5REtzWkRNV2k0RVVaSWh5MzN5dWpQc1NSLXhVPXy-cqQUoQTWtiJ-sqRJbLHizLsA0RrY_s2sUtGPgIwkxA==")]

structure LoadResult where
  cookies : Dict
  cookie_expiry : Option ℚ
  deriving DecidableEq

/-- `load_cookies_from_file` on a file that parses (or is absent):
`self.cookies` is replaced by the file's cookies; when the jar is fresh
(age strictly below 55 minutes) the expiry is restored as `saved_at + 1h`
and loading stops; otherwise execution falls through to the hardcoded
initial cookies, which are merged over whatever `self.cookies` holds. -/
def load_cookies_from_file (file : Option SavedFile) (st : MonitorState)
    (now : ℚ) : LoadResult :=
  match file with
  | some data =>
      match data.saved_at with
      | some t =>
          if now - t < 55 then
            { cookies := data.cookies, cookie_expiry := some (t + 60) }
          else
            { cookies := dictUpdate data.cookies initial_cookies
              cookie_expiry := some (now + 60) }
      | none =>
          { cookies := dictUpdate data.cookies initial_cookies
            cookie_expiry := some (now + 60) }
  | none =>
      { cookies := dictUpdate st.cookies initial_cookies
        cookie_expiry := some (now + 60) }

/-- `save_cookies_to_file`: write `{cookies: self.cookies, saved_at: now}`. -/
def save_cookies_to_file (st : MonitorState) (now : ℚ) : SavedFile :=
  { cookies := st.cookies, saved_at := some now }

/-- The shutdown hook wired in `main` via `app.aboutToQuit`: the current
store is persisted unconditionally. -/
def on_shutdown (st : MonitorState) (now : ℚ) : SavedFile :=
  save_cookies_to_file st now

/-! ## Credits snapshot (`update_credits_display`) -/

/-- The JSON body of a successful credits response; `none` fields are
absent keys (Python `data.get(key, 0)` defaults them to 0). -/
structure CreditsData where
  usageUnitsRemaining : Option ℤ
  usageUnitsConsumedThisBillingCycle : Option ℤ
  deriving DecidableEq

/-- The values `update_credits_display` renders. -/
structure CreditsView where
  remaining : ℤ
  total : ℤ
  percentage : ℚ
  deriving DecidableEq

/-- `update_credits_display`: `remaining` defaults to 0, `total` is
`remaining + consumed`, and the percentage is computed only when
`total > 0`, else 0.0. -/
def update_credits_display (data : CreditsData) : CreditsView :=
  let remaining := data.usageUnitsRemaining.getD 0
  let total := remaining + data.usageUnitsConsumedThisBillingCycle.getD 0
  if total > 0 then
    { remaining := remaining, total := total
      percentage := ((remaining : ℚ) / (total : ℚ)) * 100 }
  else
    { remaining := remaining, total := total, percentage := 0 }

/-! ## Credits poller (`fetch_credits`) -/

def login_url : String := "https://app.augmentcode.com/account/subscription"

inductive Display where
  | normal (v : CreditsView)
  | error
  deriving DecidableEq

/-- What the HTTP layer hands back: a status with a JSON body that may
fail to parse (`none`), or a raised network error/timeout. -/
inductive HttpOutcome where
  | response (status : Nat) (body : Option CreditsData)
  | netError
  deriving DecidableEq

/-- Observable outcome of one `fetch_credits` call: whether the GET was
issued, the URL `show_browser` navigated to (if it ran), and the display
state the call left behind. -/
structure FetchResult where
  networkCalled : Bool
  browserNavigatedTo : Option String
  display : Display
  deriving DecidableEq

/-- `fetch_credits`: empty store short-circuits to the error state with no
request; 200 with a parseable body updates the display; 401/403 shows the
error state and opens the browser at the login page; anything else (other
statuses, parse failures, network errors) shows the error state. -/
def fetch_credits (cookies : Dict) (out : HttpOutcome) : FetchResult :=
  if cookies.isEmpty then
    { networkCalled := false, browserNavigatedTo := none, display := .error }
  else
    match out with
    | .response status body =>
        if status = 200 then
          match body with
          | some data =>
              { networkCalled := true, browserNavigatedTo := none
                display := .normal (update_credits_display data) }
          | none =>
              { networkCalled := true, browserNavigatedTo := none
                display := .error }
        else if status = 401 ∨ status = 403 then
          { networkCalled := true, browserNavigatedTo := some login_url
            display := .error }
        else
          { networkCalled := true, browserNavigatedTo := none
            display := .error }
    | .netError =>
        { networkCalled := true, browserNavigatedTo := none, display := .error }

/-! ## Spec-modelled session-token inspection

The repository's code has no token-decoding logic; the definitions below
are stated from the specification's words so the overwrite-protection
claim can be expressed against them. -/

/-- The value of a base64 alphabet character, `none` otherwise. -/
def b64Val (c : Char) : Option Nat :=
  if 'A' ≤ c ∧ c ≤ 'Z' then some (c.toNat - 'A'.toNat)
  else if 'a' ≤ c ∧ c ≤ 'z' then some (c.toNat - 'a'.toNat + 26)
  else if '0' ≤ c ∧ c ≤ '9' then some (c.toNat - '0'.toNat + 52)
  else if c = '+' then some 62
  else if c = '/' then some 63
  else none

/-- Base64 decoding to bytes, tolerating `=` padding; `none` on any
character outside the alphabet. -/
def b64Decode : List Char → Option (List Nat)
  | [] => some []
  | [a, b] =>
      match b64Val a, b64Val b with
      | some va, some vb => some [va * 4 + vb / 16]
      | _, _ => none
  | [a, b, c] =>
      match b64Val a, b64Val b, b64Val c with
      | some va, some vb, some vc =>
          some [va * 4 + vb / 16, vb % 16 * 16 + vc / 4]
      | _, _, _ => none
  | a :: b :: c :: d :: rest =>
      match b64Val a, b64Val b with
      | some va, some vb =>
          let byte1 := va * 4 + vb / 16
          if c = '=' then some [byte1]
          else
            match b64Val c with
            | some vc =>
                let byte2 := vb % 16 * 16 + vc / 4
                if d = '=' then some [byte1, byte2]
                else
                  match b64Val d with
                  | some vd =>
                      match b64Decode rest with
                      | some bytes =>
                          some (byte1 :: byte2 :: (vc % 4 * 64 + vd) :: bytes)
                      | none => none
                  | none => none
            | none => none
      | _, _ => none
  | [_] => none

/-- Whether `needle` occurs as a contiguous run inside `haystack`. -/
def containsBytes (needle : List Nat) : List Nat → Bool
  | [] => needle.isEmpty
  | b :: rest => needle.isPrefixOf (b :: rest) || containsBytes needle rest

/-- Modelled from the spec: §4.1/§9's `looksAuthenticated(value)` — a
best-effort, failure-tolerant decode of the base64-embedded JSON-like
segment before the `.` delimiter, checking for the user-identity marker
(a `"user"` field); any decode failure yields `false` (fail open). The
repository's code contains no such check. -/
def looksAuthenticated (value : String) : Bool :=
  match b64Decode (value.toList.takeWhile (· != '.')) with
  | some bytes => containsBytes ("\"user\"".toList.map Char.toNat) bytes
  | none => false

/-- Modelled from the spec: §4.5/§7 — an `AuthRequired` poll outcome is one
that triggers the Session Refresh Driver's Refreshing state (the browser is
instructed to navigate to the login page) while the Display shows the Error
state. -/
def specAuthRequired (r : FetchResult) : Prop :=
  r.browserNavigatedTo = some login_url ∧ r.display = .error

/-! ## Rendering of delimited cookie text (for the format-equivalence claim) -/

/-- Join segments with a separator (Python `sep.join(segs)`). -/
def joinWith (sep : List Char) : List (List Char) → List Char
  | [] => []
  | [s] => s
  | s :: rest => s ++ sep ++ joinWith sep rest

/-! ## Helper lemmas -/

theorem toList_mk (l : List Char) : (String.mk l).toList = l := rfl

theorem splitChar_cons_eq {sep c : Char} {cs r : List Char} {rs : List (List Char)}
    (h : splitChar sep cs = r :: rs) :
    splitChar sep (c :: cs) = if c = sep then [] :: r :: rs else (c :: r) :: rs := by
  unfold splitChar
  rw [h]

theorem splitChar_ne_nil (sep : Char) (l : List Char) : splitChar sep l ≠ [] := by
  induction l with
  | nil => simp [splitChar]
  | cons c cs ih =>
      cases h : splitChar sep cs with
      | nil => exact absurd h ih
      | cons r rs =>
          rw [splitChar_cons_eq h]
          split <;> simp

theorem splitChar_of_not_mem {sep : Char} {l : List Char} (h : sep ∉ l) :
    splitChar sep l = [l] := by
  induction l with
  | nil => rfl
  | cons c cs ih =>
      have hc : ¬c = sep := fun hcs => h (hcs ▸ List.mem_cons_self c cs)
      have ih' := ih fun hm => h (List.mem_cons_of_mem c hm)
      simp [splitChar, ih', hc]

theorem splitChar_append_cons {sep : Char} {s : List Char} (t : List Char)
    (h : sep ∉ s) : splitChar sep (s ++ sep :: t) = s :: splitChar sep t := by
  induction s with
  | nil =>
      cases hr : splitChar sep t with
      | nil => exact absurd hr (splitChar_ne_nil sep t)
      | cons r rs => simp [splitChar, hr]
  | cons a s' ih =>
      have ha : ¬a = sep := fun has => h (has ▸ List.mem_cons_self a s')
      have ih' := ih fun hm => h (List.mem_cons_of_mem a hm)
      simp [splitChar, ih', ha]

theorem mem_of_mem_splitChar {sep : Char} {l seg : List Char}
    (hseg : seg ∈ splitChar sep l) {a : Char} (ha : a ∈ seg) : a ∈ l := by
  induction l generalizing seg with
  | nil =>
      simp only [splitChar, List.mem_singleton] at hseg
      subst hseg
      cases ha
  | cons c cs ih =>
      cases hr : splitChar sep cs with
      | nil => exact absurd hr (splitChar_ne_nil sep cs)
      | cons r rs =>
          rw [splitChar_cons_eq hr] at hseg
          by_cases hc : c = sep
          · rw [if_pos hc] at hseg
            simp only [List.mem_cons] at hseg
            rcases hseg with hseg | hseg | hseg
            · subst hseg; cases ha
            · subst hseg
              exact List.mem_cons_of_mem c (ih (hr ▸ List.mem_cons_self seg rs) ha)
            · exact List.mem_cons_of_mem c
                (ih (hr ▸ List.mem_cons_of_mem r hseg) ha)
          · rw [if_neg hc] at hseg
            simp only [List.mem_cons] at hseg
            rcases hseg with hseg | hseg
            · subst hseg
              simp only [List.mem_cons] at ha
              rcases ha with rfl | ha
              · exact List.mem_cons_self a cs
              · exact List.mem_cons_of_mem c (ih (hr ▸ List.mem_cons_self r rs) ha)
            · exact List.mem_cons_of_mem c
                (ih (hr ▸ List.mem_cons_of_mem r hseg) ha)

theorem strip_eq_rdropWhile (l : List Char) :
    strip l = List.rdropWhile Char.isWhitespace (l.dropWhile Char.isWhitespace) :=
  rfl

theorem mem_of_mem_strip {l : List Char} {a : Char} (ha : a ∈ strip l) : a ∈ l := by
  rw [strip_eq_rdropWhile] at ha
  have hpre := List.rdropWhile_prefix Char.isWhitespace
      (l.dropWhile Char.isWhitespace)
  have h1 := hpre.sublist
  have h2 := (List.dropWhile_suffix (l := l) Char.isWhitespace).sublist
  exact (h1.trans h2).subset ha

theorem dropWhile_eq_self_of_leading {p : Char → Bool} {l₁ l₂ : List Char}
    (hpre : l₁ <+: l₂) (h : l₂.dropWhile p = l₂) : l₁.dropWhile p = l₁ := by
  cases l₁ with
  | nil => rfl
  | cons a t =>
      obtain ⟨r, hr⟩ := hpre
      subst hr
      rw [List.dropWhile_eq_self_iff] at h ⊢
      intro _
      exact h (by simp)

theorem strip_idem (l : List Char) : strip (strip l) = strip l := by
  rw [strip_eq_rdropWhile, strip_eq_rdropWhile l]
  set A := l.dropWhile Char.isWhitespace with hA
  have hAself : A.dropWhile Char.isWhitespace = A := by
    rw [hA]; exact List.dropWhile_idempotent _ _
  have hpre := List.rdropWhile_prefix Char.isWhitespace A
  rw [dropWhile_eq_self_of_leading hpre hAself]
  exact List.rdropWhile_idempotent _ _

theorem splitFirstEq_eq_none {l : List Char} (h : '=' ∉ l) :
    splitFirstEq l = none := by
  induction l with
  | nil => rfl
  | cons c cs ih =>
      have hc : ¬c = '=' := fun hcs => h (hcs ▸ List.mem_cons_self c cs)
      have ih' := ih fun hm => h (List.mem_cons_of_mem c hm)
      simp [splitFirstEq, hc, ih']

theorem addPair_of_no_eq {acc : Dict} {seg : List Char} (h : '=' ∉ seg) :
    addPair acc seg = acc := by
  have hn : splitFirstEq (strip seg) = none :=
    splitFirstEq_eq_none fun hm => h (mem_of_mem_strip hm)
  simp [addPair, hn]

theorem foldl_addPair_of_no_eq {segs : List (List Char)}
    (h : ∀ s ∈ segs, '=' ∉ s) (acc : Dict) : segs.foldl addPair acc = acc := by
  induction segs generalizing acc with
  | nil => rfl
  | cons s rest ih =>
      rw [List.foldl_cons, addPair_of_no_eq (h s (List.mem_cons_self s rest))]
      exact ih (fun s' hs' => h s' (List.mem_cons_of_mem s hs')) acc

theorem mem_dictInsert {k v : String} {d : Dict} {x : String × String} :
    x ∈ dictInsert k v d → x = (k, v) ∨ x ∈ d := by
  induction d with
  | nil => intro hx; simpa [dictInsert] using hx
  | cons kv rest ih =>
      obtain ⟨k', v'⟩ := kv
      intro hx
      by_cases h : k' = k
      · rw [dictInsert, if_pos h] at hx
        simp only [List.mem_cons] at hx
        rcases hx with hx | hx
        · exact Or.inl hx
        · exact Or.inr (List.mem_cons_of_mem _ hx)
      · rw [dictInsert, if_neg h] at hx
        simp only [List.mem_cons] at hx
        rcases hx with hx | hx
        · exact Or.inr (hx ▸ List.mem_cons_self _ _)
        · rcases ih hx with hx' | hx'
          · exact Or.inl hx'
          · exact Or.inr (List.mem_cons_of_mem _ hx')

theorem dictGet_dictInsert_self (k v : String) (d : Dict) :
    dictGet (dictInsert k v d) k = some v := by
  induction d with
  | nil => simp [dictInsert, dictGet]
  | cons kv rest ih =>
      obtain ⟨k', v'⟩ := kv
      by_cases h : k' = k
      · simp [dictInsert, h, dictGet]
      · rw [dictInsert, if_neg h]
        rw [dictGet] at ih ⊢
        rw [List.find?_cons_of_neg]
        · exact ih
        · simp [h]

theorem mem_foldl_addPair {segs : List (List Char)} {acc : Dict}
    {x : String × String} :
    x ∈ segs.foldl addPair acc →
      x ∈ acc ∨ (strip x.1.toList = x.1.toList ∧ strip x.2.toList = x.2.toList) := by
  induction segs generalizing acc with
  | nil => exact fun hx => Or.inl hx
  | cons s rest ih =>
      intro hx
      rw [List.foldl_cons] at hx
      rcases ih hx with h | h
      · rw [addPair] at h
        cases hsp : splitFirstEq (strip s) with
        | none => rw [hsp] at h; exact Or.inl h
        | some nv =>
            obtain ⟨n, v0⟩ := nv
            rw [hsp] at h
            rcases mem_dictInsert h with hx' | hx'
            · subst hx'
              exact Or.inr ⟨strip_idem n, strip_idem v0⟩
            · exact Or.inl hx'
      · exact Or.inr h

theorem not_mem_joinWith {c : Char} {sep : List Char} {segs : List (List Char)}
    (hsep : c ∉ sep) (h : ∀ s ∈ segs, c ∉ s) : c ∉ joinWith sep segs := by
  induction segs with
  | nil => simp [joinWith]
  | cons s rest ih =>
      cases rest with
      | nil => exact h s (List.mem_cons_self s [])
      | cons t r =>
          have ih' := ih fun s' hs' => h s' (List.mem_cons_of_mem s hs')
          simp only [joinWith, List.mem_append]
          push_neg
          exact ⟨⟨h s (List.mem_cons_self s _), hsep⟩, ih'⟩

theorem splitChar_joinWith {sep : Char} {segs : List (List Char)}
    (hne : segs ≠ []) (h : ∀ s ∈ segs, sep ∉ s) :
    splitChar sep (joinWith [sep] segs) = segs := by
  induction segs with
  | nil => exact absurd rfl hne
  | cons s rest ih =>
      cases rest with
      | nil =>
          simp only [joinWith]
          exact splitChar_of_not_mem (h s (List.mem_cons_self s []))
      | cons t r =>
          have hstep : joinWith [sep] (s :: t :: r) = s ++ sep :: joinWith [sep] (t :: r) := by
            simp [joinWith]
          rw [hstep, splitChar_append_cons _ (h s (List.mem_cons_self s _))]
          rw [ih (by simp) fun s' hs' => h s' (List.mem_cons_of_mem s hs')]

theorem update_credits_display_remaining (data : CreditsData) :
    (update_credits_display data).remaining = data.usageUnitsRemaining.getD 0 := by
  simp only [update_credits_display]
  split <;> rfl

theorem update_credits_display_total (data : CreditsData) :
    (update_credits_display data).total
      = data.usageUnitsRemaining.getD 0
        + data.usageUnitsConsumedThisBillingCycle.getD 0 := by
  simp only [update_credits_display]
  split <;> rfl

/-! ## Claims -/

/-- C1 counterexample: the first value decodes (base64 segment before `.`)
to JSON containing the user-identity marker, the second does not, and yet
`on_cookie_added` replaces the authenticated `_session` value with the
marker-less one — the store does not stay unchanged. -/
theorem C1_counterexample :
    looksAuthenticated "eyJ1c2VyIjoxMjN9.sig" = true ∧
    looksAuthenticated "eyJhbm9uIjoxMjN9.sig" = false ∧
    (on_cookie_added
        { cookies := [("_session", "eyJ1c2VyIjoxMjN9.sig")], cookie_expiry := none }
        "_session" "eyJhbm9uIjoxMjN9.sig" 0).cookies
      = [("_session", "eyJhbm9uIjoxMjN9.sig")] := by decide

/-- C1 (amended): the cookie store's set operation overwrites every name
unconditionally — a cookie-set event performs a plain dict upsert (the new
value is always the one stored afterwards), and a manual-import merge
applies the same upsert per imported pair; no decode-based protection of
the primary session cookie exists. -/
theorem C1_set_unconditionally_overwrites (st : MonitorState)
    (name value text : String) (now : ℚ) :
    (on_cookie_added st name value now).cookies = dictInsert name value st.cookies ∧
    dictGet (dictInsert name value st.cookies) name = some value ∧
    (parseCookieText text ≠ [] →
      (parse_and_load_cookies st text now).cookies
        = dictUpdate st.cookies (parseCookieText text)) := by
  refine ⟨?_, dictGet_dictInsert_self name value st.cookies, ?_⟩
  · simp only [on_cookie_added]
    split <;> rfl
  · intro hne
    cases hp : parseCookieText text with
    | nil => exact absurd hp hne
    | cons kv rest => simp [parse_and_load_cookies, hp]

/-- C1 witness: the amended theorem applied at a concrete import. -/
theorem C1_set_unconditionally_overwrites_witness :
    parseCookieText "a=1" ≠ [] ∧
    (parse_and_load_cookies { cookies := [], cookie_expiry := none } "a=1" 0).cookies
      = dictUpdate [] (parseCookieText "a=1") :=
  ⟨by decide, (C1_set_unconditionally_overwrites
      { cookies := [], cookie_expiry := none } "n" "v" "a=1" 0).2.2 (by decide)⟩

/-- C2 counterexample: a jar saved 100 minutes ago (age ≥ 55) is not
returned as absent — its cookies stay installed (the persisted pair is
still retrievable) and the hardcoded `_session` is merged in. -/
theorem C2_counterexample :
    ¬(load_cookies_from_file
        (some { cookies := [("a", "1")], saved_at := some 0 })
        { cookies := [], cookie_expiry := none } 100).cookies = [] ∧
    dictGet (load_cookies_from_file
        (some { cookies := [("a", "1")], saved_at := some 0 })
        { cookies := [], cookie_expiry := none } 100).cookies "a" = some "1" ∧
    dictContains (load_cookies_from_file
        (some { cookies := [("a", "1")], saved_at := some 0 })
        { cookies := [], cookie_expiry := none } 100).cookies "_session" = true := by
  have hload : load_cookies_from_file
      (some { cookies := [("a", "1")], saved_at := some 0 })
      { cookies := [], cookie_expiry := none } 100
      = { cookies := dictUpdate [("a", "1")] initial_cookies
          cookie_expiry := some (100 + 60) } := by
    norm_num [load_cookies_from_file]
  rw [hload]
  exact ⟨by decide, by decide, by decide⟩

/-- C2 (amended): for a persisted jar whose `saved_at` age is strictly
below 55 minutes, `load` returns the jar unchanged with the expiry
restored as `saved_at + 1h`; for age at least 55 minutes the jar is not
discarded: its cookies remain installed, the hardcoded initial cookies are
merged over them, and a fresh one-hour expiry is set. -/
theorem C2_load_freshness (file : SavedFile) (st : MonitorState) (now t : ℚ)
    (h : file.saved_at = some t) :
    (now - t < 55 →
      load_cookies_from_file (some file) st now
        = { cookies := file.cookies, cookie_expiry := some (t + 60) }) ∧
    (55 ≤ now - t →
      load_cookies_from_file (some file) st now
        = { cookies := dictUpdate file.cookies initial_cookies
            cookie_expiry := some (now + 60) }) := by
  constructor <;> intro hage
  · simp [load_cookies_from_file, h, hage]
  · simp [load_cookies_from_file, h, not_lt.mpr hage]

/-- C2 witness: the amended theorem applied to a fresh jar. -/
theorem C2_load_freshness_witness :
    ({ cookies := [("a", "1")], saved_at := some 7 } : SavedFile).saved_at
      = some (7:ℚ) ∧
    (10:ℚ) - 7 < 55 ∧
    load_cookies_from_file (some { cookies := [("a", "1")], saved_at := some 7 })
        { cookies := [], cookie_expiry := none } 10
      = { cookies := [("a", "1")], cookie_expiry := some (7 + 60) } :=
  ⟨rfl, by norm_num,
    (C2_load_freshness { cookies := [("a", "1")], saved_at := some 7 }
        { cookies := [], cookie_expiry := none } 10 7 rfl).1 (by norm_num)⟩

/-- C3 (confirmed): every snapshot satisfies `remaining = field or 0`,
`total = remaining + consumedThisCycle` (missing fields defaulting to 0),
`percentage = remaining/total*100` when `total > 0`; and the concrete
response 750/250 yields 75.0%, 750 remaining, 1000 total. -/
theorem C3_snapshot (data : CreditsData) :
    (update_credits_display data).remaining = data.usageUnitsRemaining.getD 0 ∧
    (update_credits_display data).total
      = (update_credits_display data).remaining
        + data.usageUnitsConsumedThisBillingCycle.getD 0 ∧
    (0 < (update_credits_display data).total →
      (update_credits_display data).percentage
        = ((update_credits_display data).remaining : ℚ)
          / ((update_credits_display data).total : ℚ) * 100) ∧
    update_credits_display ⟨some 750, some 250⟩
      = { remaining := 750, total := 1000, percentage := 75 } := by
  refine ⟨update_credits_display_remaining data, ?_, ?_,
    by norm_num [update_credits_display]⟩
  · rw [update_credits_display_total, update_credits_display_remaining]
  · intro hpos
    rw [update_credits_display_total] at hpos
    rw [update_credits_display_remaining, update_credits_display_total]
    simp only [update_credits_display, if_pos hpos]

/-- C3 witness: the theorem applied to the 750/250 response. -/
theorem C3_snapshot_witness :
    0 < (update_credits_display ⟨some 750, some 250⟩).total ∧
    (update_credits_display ⟨some 750, some 250⟩).percentage
      = ((update_credits_display ⟨some 750, some 250⟩).remaining : ℚ)
        / ((update_credits_display ⟨some 750, some 250⟩).total : ℚ) * 100 := by
  have htot : 0 < (update_credits_display ⟨some 750, some 250⟩).total := by decide
  exact ⟨htot, (C3_snapshot ⟨some 750, some 250⟩).2.2.1 htot⟩

/-- C4 (confirmed): with a non-empty store, a 401 or 403 response yields
the error display together with the browser being instructed to navigate
to the login page (the `AuthRequired` outcome triggering the refresh
driver), and the display leaves the error state only on a successful 200
poll with a parseable body. -/
theorem C4_auth_required (cookies : Dict) (status : Nat) (body : Option CreditsData)
    (hne : cookies ≠ []) (hst : status = 401 ∨ status = 403) :
    fetch_credits cookies (.response status body)
      = { networkCalled := true, browserNavigatedTo := some login_url
          display := .error } ∧
    specAuthRequired (fetch_credits cookies (.response status body)) ∧
    (∀ out, (fetch_credits cookies out).display ≠ .error →
      ∃ d, out = .response 200 (some d) ∧
        (fetch_credits cookies out).display = .normal (update_credits_display d)) := by
  obtain ⟨c, cs, rfl⟩ := List.exists_cons_of_ne_nil hne
  have hmain : fetch_credits (c :: cs) (.response status body)
      = { networkCalled := true, browserNavigatedTo := some login_url
          display := .error } := by
    rcases hst with rfl | rfl <;> simp [fetch_credits]
  refine ⟨hmain, ?_, ?_⟩
  · rw [hmain]
    exact ⟨rfl, rfl⟩
  · intro out hdisp
    cases out with
    | netError => simp [fetch_credits] at hdisp
    | response s b =>
        by_cases hs : s = 200
        · subst hs
          cases b with
          | none => simp [fetch_credits] at hdisp
          | some d =>
              refine ⟨d, rfl, ?_⟩
              simp [fetch_credits]
        · by_cases h4 : s = 401 ∨ s = 403
          · simp [fetch_credits, hs, h4] at hdisp
          · simp [fetch_credits, hs, h4] at hdisp

/-- C4 witness: the theorem applied to a 403 response on a store holding a
session cookie. -/
theorem C4_auth_required_witness :
    ([("_session", "s")] : Dict) ≠ [] ∧ ((403:Nat) = 401 ∨ (403:Nat) = 403) ∧
    fetch_credits [("_session", "s")] (.response 403 none)
      = { networkCalled := true, browserNavigatedTo := some login_url
          display := .error } :=
  ⟨by decide, by decide,
    (C4_auth_required [("_session", "s")] 403 none (by decide) (by decide)).1⟩

/-- C5 counterexample: a cookie-set event for a name other than the two
session cookies, on a store containing neither, mutates the store but is
not followed by a save. -/
theorem C5_counterexample :
    (on_cookie_added { cookies := [], cookie_expiry := none } "foo" "bar" 0).cookies
      = [("foo", "bar")] ∧
    (on_cookie_added { cookies := [], cookie_expiry := none } "foo" "bar" 0).saved
      = false := by decide

/-- C5 (amended): a cookie-set event is followed by a save exactly when the
store after the mutation contains `_session` or `web_rpc_proxy_session`; a
manual-import merge saves exactly when the parsed mapping is nonempty; on
shutdown the current store is persisted unconditionally. -/
theorem C5_save_policy (st : MonitorState) (name value text : String) (now : ℚ) :
    ((on_cookie_added st name value now).saved
      = (dictContains (dictInsert name value st.cookies) "_session"
          || dictContains (dictInsert name value st.cookies) "web_rpc_proxy_session")) ∧
    ((parse_and_load_cookies st text now).saved
      = !(parseCookieText text).isEmpty) ∧
    on_shutdown st now = { cookies := st.cookies, saved_at := some now } := by
  refine ⟨?_, ?_, rfl⟩
  · simp only [on_cookie_added]
    split <;> simp_all
  · simp only [parse_and_load_cookies]
    split <;> simp_all

/-- C6 (confirmed): a response with both usage fields 0 yields percentage
0.0, and whenever the derived total is not positive the percentage is the
guarded constant 0 — the division branch is never taken. -/
theorem C6_no_div_when_zero (data : CreditsData) :
    (update_credits_display ⟨some 0, some 0⟩).percentage = 0 ∧
    ((update_credits_display data).total ≤ 0 →
      (update_credits_display data).percentage = 0) := by
  constructor
  · norm_num [update_credits_display]
  · intro h
    rw [update_credits_display_total] at h
    simp only [update_credits_display, if_neg (not_lt.mpr h)]

/-- C6 witness: the theorem applied to the all-zero response. -/
theorem C6_no_div_when_zero_witness :
    (update_credits_display ⟨some 0, some 0⟩).total ≤ 0 ∧
    (update_credits_display ⟨some 0, some 0⟩).percentage = 0 := by
  have htot : (update_credits_display ⟨some 0, some 0⟩).total ≤ 0 := by decide
  exact ⟨htot, (C6_no_div_when_zero ⟨some 0, some 0⟩).2 htot⟩

/-- C7 (confirmed): the parser is format-equivalent on semicolon- and
newline-delimited renderings of the same segments (no segment containing
either delimiter), and the two concrete renderings of `a=1`/`b=2` both
yield the mapping `a ↦ 1, b ↦ 2`. -/
theorem C7_format_equivalence (segs : List (List Char)) (hne : segs ≠ [])
    (h1 : ∀ s ∈ segs, ';' ∉ s) (h2 : ∀ s ∈ segs, '\n' ∉ s) :
    parseCookieText (String.mk (joinWith [';'] segs))
      = parseCookieText (String.mk (joinWith ['\n'] segs)) ∧
    parseCookieText "a=1; b=2" = [("a", "1"), ("b", "2")] ∧
    parseCookieText "a=1\nb=2" = [("a", "1"), ("b", "2")] := by
  refine ⟨?_, by decide, by decide⟩
  cases segs with
  | nil => exact absurd rfl hne
  | cons s rest =>
      cases rest with
      | nil => rfl
      | cons t r =>
          have hsemi : ';' ∈ joinWith [';'] (s :: t :: r) := by
            simp [joinWith]
          have hnos : ';' ∉ joinWith ['\n'] (s :: t :: r) :=
            not_mem_joinWith (by decide) h1
          simp only [parseCookieText, toList_mk]
          rw [if_pos hsemi, if_neg hnos]
          rw [splitChar_joinWith (by simp) h1, splitChar_joinWith (by simp) h2]

/-- C7 witness: the theorem applied to the segments `a=1` and `b=2`. -/
theorem C7_format_equivalence_witness :
    ([['a', '=', '1'], ['b', '=', '2']] : List (List Char)) ≠ [] ∧
    parseCookieText (String.mk (joinWith [';'] [['a', '=', '1'], ['b', '=', '2']]))
      = parseCookieText (String.mk (joinWith ['\n'] [['a', '=', '1'], ['b', '=', '2']])) :=
  ⟨by decide, (C7_format_equivalence [['a', '=', '1'], ['b', '=', '2']]
      (by decide) (by decide) (by decide)).1⟩

/-- C8 (confirmed): an input containing no `name=value` pair (no `=` occurs
at all, e.g. `nonsense`) parses to the empty mapping, so the import raises
and is caught: the error state is shown and the prior store is untouched
(cookies identical, freshness not updated, nothing saved). -/
theorem C8_parse_error (st : MonitorState) (text : String) (now : ℚ)
    (h : '=' ∉ text.toList) :
    parseCookieText text = [] ∧
    parse_and_load_cookies st text now
      = { cookies := st.cookies, cookie_expiry := st.cookie_expiry
          saved := false, errorShown := true } := by
  have hparse : parseCookieText text = [] := by
    simp only [parseCookieText]
    split
    · exact foldl_addPair_of_no_eq
        (fun s hs hm => h (mem_of_mem_splitChar hs hm)) []
    · exact foldl_addPair_of_no_eq
        (fun s hs hm => h (mem_of_mem_splitChar hs hm)) []
  refine ⟨hparse, ?_⟩
  simp [parse_and_load_cookies, hparse]

/-- C8 witness: the theorem applied to the input `nonsense`. -/
theorem C8_parse_error_witness :
    '=' ∉ "nonsense".toList ∧ parseCookieText "nonsense" = [] :=
  ⟨by decide,
    (C8_parse_error { cookies := [], cookie_expiry := none } "nonsense" 0 (by decide)).1⟩

/-- C9 counterexample: with an empty store the poll makes no network call
and shows the error display, but it is not the `AuthRequired` outcome — the
browser is not instructed to navigate to the login page, unlike the same
403 situation on a non-empty store. -/
theorem C9_counterexample :
    (fetch_credits [] (.response 403 none)).networkCalled = false ∧
    ¬specAuthRequired (fetch_credits [] (.response 403 none)) ∧
    specAuthRequired (fetch_credits [("_session", "s")] (.response 403 none)) := by
  refine ⟨rfl, ?_, ⟨rfl, rfl⟩⟩
  rintro ⟨hnav, -⟩
  simp [fetch_credits] at hnav

/-- C9 (amended): if the cookie store is empty, `fetch_credits` immediately
shows the error display and performs no network call, but does not trigger
the refresh flow (no browser navigation) — the outcome is an error, not the
spec's `AuthRequired`. -/
theorem C9_empty_store_error_without_network (out : HttpOutcome) :
    fetch_credits [] out
      = { networkCalled := false, browserNavigatedTo := none, display := .error } :=
  rfl

/-- C10 counterexample: the segment `=value` is not skipped — the empty
string appears as a key of the returned mapping. -/
theorem C10_counterexample :
    parseCookieText "=value" = [("", "value")] ∧
    dictGet (parseCookieText "=value") "" = some "value" := by decide

/-- C10 (amended): every name and value in the parsed mapping is trimmed of
surrounding whitespace, but pairs whose name is empty after trimming are
not skipped: a segment `=value` yields an empty-string key. -/
theorem C10_trimmed_but_empty_names_kept (text k v : String)
    (h : (k, v) ∈ parseCookieText text) :
    (strip k.toList = k.toList ∧ strip v.toList = v.toList) ∧
    parseCookieText "=value" = [("", "value")] := by
  refine ⟨?_, by decide⟩
  simp only [parseCookieText] at h
  split at h
  · rcases mem_foldl_addPair h with hacc | hP
    · exact absurd hacc (List.not_mem_nil _)
    · exact hP
  · rcases mem_foldl_addPair h with hacc | hP
    · exact absurd hacc (List.not_mem_nil _)
    · exact hP

/-- C10 witness: the amended theorem applied to the pair `a ↦ 1` of a
concrete parse. -/
theorem C10_trimmed_witness :
    ("a", "1") ∈ parseCookieText "a=1; b=2" ∧
    strip "a".toList = "a".toList ∧ strip "1".toList = "1".toList :=
  ⟨by decide,
    (C10_trimmed_but_empty_names_kept "a=1; b=2" "a" "1" (by decide)).1.1,
    (C10_trimmed_but_empty_names_kept "a=1; b=2" "a" "1" (by decide)).1.2⟩

end CreditsMonitor
